import Mathlib

/-
Verification of the gceutils library (src/src/gceutils) against its
natural-language specification.

The development shallowly embeds the parts of the library that the claims
are about:
  * `base.py`: `ATPathAttribute`, `ATPathIndexOrKey`, `AbstractTreePath`
    (segments, `add_attribute`, `add_index_or_key`, `extend`, `go_up` via
    Python slicing `self[:-n]`, the dataclass-generated `__eq__`/`__hash__`),
    `NotSet`, and the `validate` method injected by `@grepr_dataclass`.
  * `decorators.py`: `enforce_type` and `_repr_type`.
  * `errors.py`: `GU_TypeValidationError` (its `path`/`msg`/`condition` data).
  * `tree_tools.py`: `TreeVisitor._visit_node_unfiltered` and
    `TreeVisitor.visit_tree`.

Python runtime values are embedded as the inductive `PyVal` (immutable value
trees), Python classes that occur as `isinstance` targets as `PyClass`, and
type annotations as the inductive `PyType`.  Raising is modelled with
`Except`: `.error e` is a raised `GU_TypeValidationError e`, `.ok ()` is a
normal return.
-/

namespace Gceutils

mutual

/-- Embedded Python values: the immutable value trees fed to `enforce_type`
and `TreeVisitor`.  `record` stands for a dataclass instance without a
custom traversal hook (module name, class name, dataclass fields in
declaration order); `notSet` is the `NotSet` sentinel of `base.py`.
`hooked` stands for an instance of a user class that defines a custom
`_visit_node_unfiltered_` method (the delegation hook of
`TreeVisitor._visit_node_unfiltered`): the hook receives the incoming path
`p` and returns a list of (path, value) pairs, embedded here by the list
`emit` of (path-suffix, value) pairs the hook appends to `p` — the empty
suffix models a hook that emits a pair at the unextended incoming path.
(The hook in `test_tree_tools.py` is of this form, with suffixes
`[indexOrKey i]`.) -/
inductive PyVal where
  | none : PyVal
  | bool (b : Bool) : PyVal
  | int (n : Int) : PyVal
  | str (s : String) : PyVal
  | bytes (bs : List Nat) : PyVal
  | list (xs : List PyVal) : PyVal
  | tuple (xs : List PyVal) : PyVal
  | set (xs : List PyVal) : PyVal
  | frozenset (xs : List PyVal) : PyVal
  | dict (entries : List (PyVal × PyVal)) : PyVal
  | record (module : String) (clsName : String) (fields : List (String × PyVal)) : PyVal
  | hooked (module : String) (clsName : String)
      (emit : List (List ATPathItem × PyVal)) : PyVal
  | notSet : PyVal

/-- A segment of an `AbstractTreePath`: `ATPathAttribute` or
`ATPathIndexOrKey` from `base.py`.  `ATPathIndexOrKey` stores whatever value
`add_index_or_key` received (an enumeration index or a dict key). -/
inductive ATPathItem where
  | attribute (value : String) : ATPathItem
  | indexOrKey (value : PyVal) : ATPathItem

end

/-- Embedded Python classes, as they occur as `isinstance` targets and in
`type(value)` for error messages.  `custom` is a user class given by module
and class name. -/
inductive PyClass where
  | noneType | bool | int | float | str | bytes
  | list | tuple | set | frozenset | dict
  | notSetType
  | custom (module : String) (clsName : String)
  deriving DecidableEq, Repr

/-- `type(value)` on embedded values. -/
def classOf : PyVal → PyClass
  | .none => .noneType
  | .bool _ => .bool
  | .int _ => .int
  | .str _ => .str
  | .bytes _ => .bytes
  | .list _ => .list
  | .tuple _ => .tuple
  | .set _ => .set
  | .frozenset _ => .frozenset
  | .dict _ => .dict
  | .record m n _ => .custom m n
  | .hooked m n _ => .custom m n
  | .notSet => .notSetType

/-- Python `isinstance(v, c)` for a concrete class `c`.  The one builtin
subclass relation that matters here is `bool <: int`.  `custom` classes are
compared by module and name (the library's values do not use inheritance
between user classes). -/
def isInstance : PyVal → PyClass → Bool
  | .none, .noneType => true
  | .bool _, .bool => true
  | .bool _, .int => true
  | .int _, .int => true
  | .str _, .str => true
  | .bytes _, .bytes => true
  | .list _, .list => true
  | .tuple _, .tuple => true
  | .set _, .set => true
  | .frozenset _, .frozenset => true
  | .dict _, .dict => true
  | .record m n _, .custom m2 n2 => m == m2 && n == n2
  | .hooked m n _, .custom m2 n2 => m == m2 && n == n2
  | .notSet, .notSetType => true
  | _, _ => false

/-- `isinstance(v, collections.abc.Mapping)`. -/
def isMappingInst : PyVal → Bool
  | .dict _ => true
  | _ => false

/-- `isinstance(v, collections.abc.Sequence)`: list, tuple, str and bytes are
registered sequences; set, frozenset and dict are not. -/
def isSequenceInst : PyVal → Bool
  | .list _ => true
  | .tuple _ => true
  | .str _ => true
  | .bytes _ => true
  | _ => false

/-- `isinstance(v, collections.abc.Iterable)`. -/
def isIterableInst : PyVal → Bool
  | .list _ => true
  | .tuple _ => true
  | .set _ => true
  | .frozenset _ => true
  | .dict _ => true
  | .str _ => true
  | .bytes _ => true
  | _ => false

/-- `enumerate(value)`: the element sequence Python iteration produces.
Iterating a str yields its characters as one-character strings, a bytes
yields ints, a dict yields its keys. -/
def pyElems : PyVal → List PyVal
  | .list xs => xs
  | .tuple xs => xs
  | .set xs => xs
  | .frozenset xs => xs
  | .str s => s.data.map (fun c => PyVal.str (String.mk [c]))
  | .bytes bs => bs.map (fun n => PyVal.int (Int.ofNat n))
  | .dict es => es.map Prod.fst
  | _ => []

/-- `value is None`. -/
def PyVal.isNone : PyVal → Bool
  | .none => true
  | _ => false

/-- `AbstractTreePath` from `base.py`: the segment tuple `path` plus the
`start_with_dot` rendering flag.  Both are dataclass fields of the frozen
`@grepr_dataclass(frozen=True, unsafe_hash=True)` class. -/
structure AbstractTreePath where
  path : List ATPathItem
  start_with_dot : Bool

/-- `AbstractTreePath.add_attribute`. -/
def AbstractTreePath.add_attribute (p : AbstractTreePath) (attr : String) : AbstractTreePath :=
  ⟨p.path ++ [ATPathItem.attribute attr], p.start_with_dot⟩

/-- `AbstractTreePath.add_index_or_key`. -/
def AbstractTreePath.add_index_or_key (p : AbstractTreePath) (k : PyVal) : AbstractTreePath :=
  ⟨p.path ++ [ATPathItem.indexOrKey k], p.start_with_dot⟩

/-- `AbstractTreePath.extend`. -/
def AbstractTreePath.extend (p q : AbstractTreePath) : AbstractTreePath :=
  ⟨p.path ++ q.path, p.start_with_dot⟩

/-- Python list/tuple slicing `xs[:stop]` with an arbitrary (possibly
negative) integer bound: a negative stop counts from the end, and the result
is clamped to `[0, len]`. -/
def pySliceUpto {α : Type} (xs : List α) (stop : Int) : List α :=
  let len : Int := Int.ofNat xs.length
  let stopClamped : Int := if stop < 0 then max (len + stop) 0 else min stop len
  xs.take stopClamped.toNat

/-- `AbstractTreePath.go_up(n)`, which the source implements as `self[:-n]`
(slicing of the segment tuple, keeping the `start_with_dot` flag). -/
def AbstractTreePath.go_up (p : AbstractTreePath) (n : Int) : AbstractTreePath :=
  ⟨pySliceUpto p.path (-n), p.start_with_dot⟩

/-- The dataclass-generated `__eq__` of `AbstractTreePath`: `@grepr_dataclass`
passes `eq=True` to `dataclass`, so two paths compare equal exactly when the
field tuples `(self.path, self.start_with_dot)` compare equal.  Both fields
are generated with `compare=True`. -/
def AbstractTreePath.pyEq (p q : AbstractTreePath) : Prop :=
  p.path = q.path ∧ p.start_with_dot = q.start_with_dot

/-- The input of the dataclass-generated `__hash__` of `AbstractTreePath`:
with `unsafe_hash=True` the generated method is
`hash((self.path, self.start_with_dot))`, so equal field tuples give equal
hashes and the hash input contains the flag. -/
def AbstractTreePath.hashBasis (p : AbstractTreePath) : List ATPathItem × Bool :=
  (p.path, p.start_with_dot)

/-- `GU_TypeValidationError` from `errors.py`, by its constructor data:
the path, the message and the optional condition string. -/
structure GU_TypeValidationError where
  path : AbstractTreePath
  msg : String
  condition : Option String

/-- Embedded type annotations: the fragment of annotations that
`enforce_type` dispatches on and that the claims quantify over.
`union` keeps the arm list produced by `get_args`; `tupleFixed` is
`tuple[T1, ..., Tk]`, `tupleVariadic` is `tuple[T, ...]`; `mappingT`,
`sequenceT` and `iterableT` are the `collections.abc` protocol generics;
`cls` is a plain class annotation. -/
inductive PyType where
  | any : PyType
  | union (arms : List PyType) : PyType
  | dictT (keyT valT : PyType) : PyType
  | tupleFixed (args : List PyType) : PyType
  | tupleVariadic (elemT : PyType) : PyType
  | listT (elemT : PyType) : PyType
  | setT (elemT : PyType) : PyType
  | frozensetT (elemT : PyType) : PyType
  | mappingT (keyT valT : PyType) : PyType
  | sequenceT (elemT : PyType) : PyType
  | iterableT (elemT : PyType) : PyType
  | cls (c : PyClass) : PyType

/-- `t.__name__` of an embedded class. -/
def PyClass.pyName : PyClass → String
  | .noneType => "NoneType"
  | .bool => "bool"
  | .int => "int"
  | .float => "float"
  | .str => "str"
  | .bytes => "bytes"
  | .list => "list"
  | .tuple => "tuple"
  | .set => "set"
  | .frozenset => "frozenset"
  | .dict => "dict"
  | .notSetType => "NotSetType"
  | .custom _ n => n

/-- `t.__module__` of an embedded class.  `NotSetType` lives in
`gceutils.base`. -/
def PyClass.pyModule : PyClass → String
  | .notSetType => "gceutils.base"
  | .custom m _ => m
  | _ => "builtins"

/-- `_repr_type` from `decorators.py` applied to a plain class:
`NotSetType` renders as `<not set>` when `notset_as_special` is set,
builtins render by bare name, otherwise by the module-qualified rules of the
source. -/
def reprClass (c : PyClass) (notset_as_special : Bool) : String :=
  if notset_as_special = true ∧ c = PyClass.notSetType then "<not set>"
  else if c.pyModule = "builtins" then c.pyName
  else if String.isPrefixOf "pmp_manip.utility." c.pyModule = true then "pmp_manip.utility." ++ c.pyName
  else if String.isPrefixOf "pmp_manip." c.pyModule = true then "pmp_manip." ++ c.pyName
  else if c.pyModule = "gceutils" then "gceutils." ++ c.pyName
  else c.pyModule ++ "." ++ c.pyName

mutual

/-- `str(t)` of an embedded type annotation, as CPython renders typing
constructs (PEP 604 unions as `A | B`, generic aliases as `origin[args]`,
classes inside generic arguments by qualified name). -/
def PyType.pyStr : PyType → String
  | .any => "typing.Any"
  | .union arms => String.intercalate " | " (pyStrList arms)
  | .dictT k v => "dict[" ++ k.pyStr ++ ", " ++ v.pyStr ++ "]"
  | .tupleFixed args => "tuple[" ++ String.intercalate ", " (pyStrList args) ++ "]"
  | .tupleVariadic t => "tuple[" ++ t.pyStr ++ ", ...]"
  | .listT t => "list[" ++ t.pyStr ++ "]"
  | .setT t => "set[" ++ t.pyStr ++ "]"
  | .frozensetT t => "frozenset[" ++ t.pyStr ++ "]"
  | .mappingT k v => "collections.abc.Mapping[" ++ k.pyStr ++ ", " ++ v.pyStr ++ "]"
  | .sequenceT t => "collections.abc.Sequence[" ++ t.pyStr ++ "]"
  | .iterableT t => "collections.abc.Iterable[" ++ t.pyStr ++ "]"
  | .cls c => if c.pyModule == "builtins" then c.pyName else c.pyModule ++ "." ++ c.pyName

/-- `str(t)` rendering of a list of type arguments. -/
def pyStrList : List PyType → List String
  | [] => []
  | t :: ts => t.pyStr :: pyStrList ts

end

/-- `_repr_type` from `decorators.py`: a plain class goes through the class
rules (with the `<not set>` special case), any other typing construct is
rendered with `str(t)`. -/
def reprType (t : PyType) (notset_as_special : Bool) : String :=
  match t with
  | .cls c => reprClass c notset_as_special
  | t => t.pyStr

/-- Every embedded type annotation has positive size (used only for the
termination measure of `enforce_type`). -/
def PyType.sizeOf_pos (t : PyType) : 0 < sizeOf t := by
  cases t <;> simp_arith

mutual

/-- `enforce_type` from `decorators.py`, restricted to the annotation
fragment `PyType`.  Raising `GU_TypeValidationError` is modelled as
returning `.error`; each branch mirrors the corresponding branch of the
source in dispatch order, messages included. -/
def enforce_type (value : PyVal) (expected : PyType) (path : AbstractTreePath)
    (condition : Option String) (notset_as_special : Bool) :
    Except GU_TypeValidationError Unit :=
  match expected with
  | .any => .ok ()
  | .union arms =>
    if enforce_type_union_arms value arms path condition notset_as_special then .ok ()
    else .error ⟨path,
      "must be one of types " ++ reprType (.union arms) notset_as_special
        ++ " not " ++ reprClass (classOf value) notset_as_special,
      condition⟩
  | .dictT keyT valT =>
    match value with
    | .dict entries =>
      enforce_type_dict_items keyT valT entries 0 path
        (path.add_attribute "keys()") condition notset_as_special
    | v => .error ⟨path,
        "must be a dict not " ++ reprClass (classOf v) notset_as_special, condition⟩
  | .tupleVariadic elemT =>
    match value with
    | .tuple xs => enforce_type_elems elemT xs 0 path condition notset_as_special
    | v => .error ⟨path,
        "must be a tuple not " ++ reprClass (classOf v) notset_as_special, condition⟩
  | .tupleFixed args =>
    match value with
    | .tuple xs =>
      if args.isEmpty then .ok ()
      else if xs.length ≠ args.length then
        .error ⟨path,
          "must be a tuple of length " ++ toString args.length
            ++ " not length " ++ toString xs.length,
          condition⟩
      else enforce_type_zip args xs 0 path condition notset_as_special
    | v => .error ⟨path,
        "must be a tuple not " ++ reprClass (classOf v) notset_as_special, condition⟩
  | .listT elemT =>
    match value with
    | .list xs => enforce_type_elems elemT xs 0 path condition notset_as_special
    | v => .error ⟨path,
        "must be a list not " ++ reprClass (classOf v) notset_as_special, condition⟩
  | .setT elemT =>
    match value with
    | .set xs => enforce_type_elems elemT xs 0 path condition notset_as_special
    | v => .error ⟨path,
        "must be a set not " ++ reprClass (classOf v) notset_as_special, condition⟩
  | .frozensetT elemT =>
    match value with
    | .frozenset xs => enforce_type_elems elemT xs 0 path condition notset_as_special
    | v => .error ⟨path,
        "must be a frozenset not " ++ reprClass (classOf v) notset_as_special, condition⟩
  | .mappingT keyT valT =>
    match value with
    | .dict entries =>
      enforce_type_dict_items keyT valT entries 0 path
        (path.add_attribute "keys()") condition notset_as_special
    | v => .error ⟨path,
        "must be a Mapping not " ++ reprClass (classOf v) notset_as_special, condition⟩
  | .sequenceT elemT =>
    if isSequenceInst value then
      enforce_type_elems elemT (pyElems value) 0 path condition notset_as_special
    else .error ⟨path,
      "must be a Sequence not " ++ reprClass (classOf value) notset_as_special, condition⟩
  | .iterableT elemT =>
    if isIterableInst value then
      match value with
      | .str _ => .ok ()
      | .bytes _ => .ok ()
      | v => enforce_type_elems elemT (pyElems v) 0 path condition notset_as_special
    else .error ⟨path,
      "must be an Iterable not " ++ reprClass (classOf value) notset_as_special, condition⟩
  | .cls c =>
    if isInstance value c then .ok ()
    else .error ⟨path,
      "must be of type " ++ reprClass c notset_as_special
        ++ " not " ++ reprClass (classOf value) notset_as_special,
      condition⟩
termination_by (sizeOf expected, 0)

/-- The arm loop of the Union branch of `enforce_type`: try the arms
left-to-right, swallowing per-arm `GU_TypeValidationError`s; `true` means
some arm accepted the value. -/
def enforce_type_union_arms (value : PyVal) (arms : List PyType)
    (path : AbstractTreePath) (condition : Option String) (notset_as_special : Bool) :
    Bool :=
  match arms with
  | [] => false
  | arm :: rest =>
    match enforce_type value arm path condition notset_as_special with
    | .ok _ => true
    | .error _ => enforce_type_union_arms value rest path condition notset_as_special
termination_by (sizeOf arms, 0)

/-- The `for i, item in enumerate(value)` element loop shared by the
list/set/frozenset, `tuple[T, ...]`, Sequence and Iterable branches of
`enforce_type`: check each element against `elemT` at the path extended by
its enumeration index, stopping at the first failure. -/
def enforce_type_elems (elemT : PyType) (xs : List PyVal) (i : Nat)
    (path : AbstractTreePath) (condition : Option String) (notset_as_special : Bool) :
    Except GU_TypeValidationError Unit :=
  match xs with
  | [] => .ok ()
  | x :: rest =>
    match enforce_type x elemT (path.add_index_or_key (.int (Int.ofNat i))) condition notset_as_special with
    | .error e => .error e
    | .ok _ => enforce_type_elems elemT rest (i + 1) path condition notset_as_special
termination_by (sizeOf elemT, xs.length + 1)

/-- The `for i, (item, elem_t) in enumerate(zip(value, args))` loop of the
fixed-arity tuple branch of `enforce_type`. -/
def enforce_type_zip (args : List PyType) (xs : List PyVal) (i : Nat)
    (path : AbstractTreePath) (condition : Option String) (notset_as_special : Bool) :
    Except GU_TypeValidationError Unit :=
  match args, xs with
  | argT :: restT, x :: rest =>
    match enforce_type x argT (path.add_index_or_key (.int (Int.ofNat i))) condition notset_as_special with
    | .error e => .error e
    | .ok _ => enforce_type_zip restT rest (i + 1) path condition notset_as_special
  | _, _ => .ok ()
termination_by (sizeOf args, 0)

/-- The `for i, (k, v) in enumerate(value.items())` loop shared by the
`dict[K,V]` and `Mapping[K,V]` branches of `enforce_type`: each key is
checked against `keyT` at `keysPath` (the incoming path extended by the
synthetic attribute `"keys()"`) plus the enumeration index, each value
against `valT` at the incoming path extended by the key. -/
def enforce_type_dict_items (keyT valT : PyType) (entries : List (PyVal × PyVal)) (i : Nat)
    (path keysPath : AbstractTreePath) (condition : Option String) (notset_as_special : Bool) :
    Except GU_TypeValidationError Unit :=
  match entries with
  | [] => .ok ()
  | (k, v) :: rest =>
    match enforce_type k keyT (keysPath.add_index_or_key (.int (Int.ofNat i))) condition notset_as_special with
    | .error e => .error e
    | .ok _ =>
      match enforce_type v valT (path.add_index_or_key k) condition notset_as_special with
      | .error e => .error e
      | .ok _ => enforce_type_dict_items keyT valT rest (i + 1) path keysPath condition notset_as_special
termination_by (sizeOf keyT + sizeOf valT, entries.length + 1)
decreasing_by
  all_goals simp_wf
  · exact Prod.Lex.left _ _ (by have := PyType.sizeOf_pos valT; omega)
  · exact Prod.Lex.left _ _ (by have := PyType.sizeOf_pos keyT; omega)
  · exact Prod.Lex.right _ (by omega)

end

/-- A dataclass field as the injected `validate` method of
`@grepr_dataclass` (`base.py`, `validate_method`) sees it: the field name,
its resolved type annotation, the instance value (`Option.none` models
`hasattr(self, field.name)` being false), and the two field options the
method consults.  The `validator_fn`/`grepr` options play no role in
`validate_method`'s type loop. -/
structure RecordFieldSpec where
  name : String
  ftype : PyType
  value : Option PyVal
  validate_type : Bool
  validate_require_exist : Bool

/-- The body of the field loop of `validate_method` from `base.py` for one
field: fields with `validate_type=False` are skipped (`continue`); a present
value is checked with `notset_as_special=False`; an absent value is checked
as the `NotSet` sentinel with `notset_as_special=True` when
`validate_require_exist` is set, and skipped otherwise.  `enforce_type` is
called without a condition argument, as in the source. -/
def validate_field_check (f : RecordFieldSpec) (path : AbstractTreePath) :
    Except GU_TypeValidationError Unit :=
  if f.validate_type = false then .ok ()
  else
    match f.value with
    | some v => enforce_type v f.ftype (path.add_attribute f.name) Option.none false
    | Option.none =>
      if f.validate_require_exist then
        enforce_type PyVal.notSet f.ftype (path.add_attribute f.name) Option.none true
      else .ok ()

/-- The field loop of `validate_method` from `base.py`: run
`validate_field_check` on each field in order, propagating the first raised
error.  This models `validate()` for records whose field values are plain
values (no nested `validate` hooks) and which define no `post_validate`, so
the remaining parts of the method are no-ops. -/
def validate_fields (flds : List RecordFieldSpec) (path : AbstractTreePath) :
    Except GU_TypeValidationError Unit :=
  match flds with
  | [] => .ok ()
  | f :: rest =>
    match validate_field_check f path with
    | .error e => .error e
    | .ok _ => validate_fields rest path

mutual

/-- `TreeVisitor._visit_node_unfiltered` from `tree_tools.py`:
list/tuple/set/frozenset elements are visited at their enumeration index,
dict values at their key; an object whose class defines a custom
`_visit_node_unfiltered_` method is delegated to fully — the embedding
returns the pairs the hook builds from the incoming path, with no further
recursion by the caller, exactly as `pairs.extend(obj._visit_node_unfiltered_(path))`
does; dataclass fields are visited at their attribute name (skipping
`None`-valued fields); every other object is a leaf with no pairs. -/
def visit_node_unfiltered (obj : PyVal) (path : AbstractTreePath) :
    List (AbstractTreePath × PyVal) :=
  match obj with
  | .list xs => visit_items xs 0 path
  | .tuple xs => visit_items xs 0 path
  | .set xs => visit_items xs 0 path
  | .frozenset xs => visit_items xs 0 path
  | .dict es => visit_entries es path
  | .hooked _ _ emit =>
    emit.map (fun sv => (⟨path.path ++ sv.1, path.start_with_dot⟩, sv.2))
  | .record _ _ flds => visit_fields flds path
  | _ => []

/-- The `for i, item in enumerate(obj)` loop of `_visit_node_unfiltered`:
pair each element with its index path, then recurse into it. -/
def visit_items (xs : List PyVal) (i : Nat) (path : AbstractTreePath) :
    List (AbstractTreePath × PyVal) :=
  match xs with
  | [] => []
  | x :: rest =>
    ((path.add_index_or_key (.int (Int.ofNat i)), x)
        :: visit_node_unfiltered x (path.add_index_or_key (.int (Int.ofNat i))))
      ++ visit_items rest (i + 1) path

/-- The `for key, value in obj.items()` loop of `_visit_node_unfiltered`:
pair each dict value with the key path, then recurse into it. -/
def visit_entries (es : List (PyVal × PyVal)) (path : AbstractTreePath) :
    List (AbstractTreePath × PyVal) :=
  match es with
  | [] => []
  | (k, v) :: rest =>
    ((path.add_index_or_key k, v) :: visit_node_unfiltered v (path.add_index_or_key k))
      ++ visit_entries rest path

/-- The dataclass-field loop of `_visit_node_unfiltered`: pair each
non-`None` field value with the attribute path, then recurse into it;
`None`-valued fields are skipped entirely (`if value is not None`). -/
def visit_fields (flds : List (String × PyVal)) (path : AbstractTreePath) :
    List (AbstractTreePath × PyVal) :=
  match flds with
  | [] => []
  | (nm, v) :: rest =>
    if v.isNone then visit_fields rest path
    else
      ((path.add_attribute nm, v) :: visit_node_unfiltered v (path.add_attribute nm))
        ++ visit_fields rest path

end

/-- `isinstance(value, self.included_types)` with a tuple of classes:
true when the value is an instance of any of them. -/
def included_matches (included_types : List PyClass) (v : PyVal) : Bool :=
  included_types.any (fun c => isInstance v c)

/-- `TreeVisitor.visit_tree` from `tree_tools.py`: run
`_visit_node_unfiltered` from the empty root path `AbstractTreePath()` and
keep the pairs whose value is an instance of one of `included_types`.  The
Python method inserts the surviving pairs into a dict keyed by path; the
embedding keeps the pair list, whose first components are exactly that
dict's keys. -/
def visit_tree (included_types : List PyClass) (obj : PyVal) :
    List (AbstractTreePath × PyVal) :=
  (visit_node_unfiltered obj ⟨[], true⟩).filter
    (fun pr => included_matches included_types pr.2)

/-! Helper lemmas about the element loops of `enforce_type`. -/

theorem enforce_type_elems_ok_iff (T : PyType) (xs : List PyVal) (i : Nat)
    (path : AbstractTreePath) (c : Option String) (ns : Bool) :
    enforce_type_elems T xs i path c ns = .ok () ↔
      ∀ pr ∈ List.enumFrom i xs,
        enforce_type pr.2 T (path.add_index_or_key (.int (Int.ofNat pr.1))) c ns = .ok () := by
  induction xs generalizing i with
  | nil => simp [enforce_type_elems]
  | cons x rest ih =>
    cases hx : enforce_type x T (path.add_index_or_key (.int (Int.ofNat i))) c ns with
    | error e =>
      simp only [enforce_type_elems, hx, List.enumFrom_cons, List.mem_cons]
      constructor
      · intro h; cases h
      · intro h
        have := h (i, x) (Or.inl rfl)
        simp only [hx] at this
        exact this
    | ok u =>
      cases u
      simp only [enforce_type_elems, hx, List.enumFrom_cons, List.mem_cons]
      rw [ih]
      constructor
      · intro h pr hpr
        rcases hpr with hpr | hpr
        · subst hpr; exact hx
        · exact h pr hpr
      · intro h pr hpr
        exact h pr (Or.inr hpr)

theorem enforce_type_elems_error (T : PyType) (xs : List PyVal) (i : Nat)
    (path : AbstractTreePath) (c : Option String) (ns : Bool) (e : GU_TypeValidationError) :
    enforce_type_elems T xs i path c ns = .error e →
      ∃ pr ∈ List.enumFrom i xs,
        enforce_type pr.2 T (path.add_index_or_key (.int (Int.ofNat pr.1))) c ns = .error e := by
  induction xs generalizing i with
  | nil => intro h; simp [enforce_type_elems] at h
  | cons x rest ih =>
    intro h
    rw [enforce_type_elems] at h
    cases hx : enforce_type x T (path.add_index_or_key (.int (Int.ofNat i))) c ns with
    | error e2 =>
      rw [hx] at h
      cases h
      exact ⟨(i, x), by simp [List.enumFrom_cons], hx⟩
    | ok u =>
      cases u
      rw [hx] at h
      rcases ih (i + 1) h with ⟨pr, hpr, hc⟩
      exact ⟨pr, by simp [List.enumFrom_cons, hpr], hc⟩

theorem enforce_type_dict_items_ok_iff (K V : PyType) (es : List (PyVal × PyVal)) (i : Nat)
    (path keysPath : AbstractTreePath) (c : Option String) (ns : Bool) :
    enforce_type_dict_items K V es i path keysPath c ns = .ok () ↔
      ∀ pr ∈ List.enumFrom i es,
        enforce_type pr.2.1 K (keysPath.add_index_or_key (.int (Int.ofNat pr.1))) c ns = .ok () ∧
        enforce_type pr.2.2 V (path.add_index_or_key pr.2.1) c ns = .ok () := by
  induction es generalizing i with
  | nil => simp [enforce_type_dict_items]
  | cons kv rest ih =>
    obtain ⟨k, v⟩ := kv
    cases hk : enforce_type k K (keysPath.add_index_or_key (.int (Int.ofNat i))) c ns with
    | error e =>
      simp only [enforce_type_dict_items, hk, List.enumFrom_cons, List.mem_cons]
      constructor
      · intro h; cases h
      · intro h
        have := (h (i, k, v) (Or.inl rfl)).1
        simp only [hk] at this
        exact this
    | ok u =>
      cases u
      cases hv : enforce_type v V (path.add_index_or_key k) c ns with
      | error e =>
        simp only [enforce_type_dict_items, hk, hv, List.enumFrom_cons, List.mem_cons]
        constructor
        · intro h; cases h
        · intro h
          have := (h (i, k, v) (Or.inl rfl)).2
          simp only [hv] at this
          exact this
      | ok u =>
        cases u
        simp only [enforce_type_dict_items, hk, hv, List.enumFrom_cons, List.mem_cons]
        rw [ih]
        constructor
        · intro h pr hpr
          rcases hpr with hpr | hpr
          · subst hpr; exact ⟨hk, hv⟩
          · exact h pr hpr
        · intro h pr hpr
          exact h pr (Or.inr hpr)

/-- C1: for every value and every two-arm union `A|B`, `enforce_type` on the
union returns normally iff it returns normally on arm `A` or on arm `B`
(arms are tried left to right with per-arm failures swallowed); when both
arms fail, a single `GU_TypeValidationError` is raised at the incoming path
whose message names the union type and the actual type of the value. -/
theorem enforce_type_union_two_arms (v : PyVal) (A B : PyType) (path : AbstractTreePath)
    (condition : Option String) (ns : Bool) :
    (enforce_type v (.union [A, B]) path condition ns = .ok () ↔
      enforce_type v A path condition ns = .ok () ∨
      enforce_type v B path condition ns = .ok ()) ∧
    (enforce_type v A path condition ns ≠ .ok () →
      enforce_type v B path condition ns ≠ .ok () →
      enforce_type v (.union [A, B]) path condition ns =
        .error ⟨path,
          "must be one of types " ++ reprType (.union [A, B]) ns
            ++ " not " ++ reprClass (classOf v) ns,
          condition⟩) := by
  cases hA : enforce_type v A path condition ns with
  | ok u =>
    cases u
    constructor
    · rw [enforce_type, enforce_type_union_arms, hA]
      simp
    · intro hA2
      exact absurd rfl hA2
  | error eA =>
    cases hB : enforce_type v B path condition ns with
    | ok u =>
      cases u
      constructor
      · rw [enforce_type, enforce_type_union_arms, hA, enforce_type_union_arms, hB]
        simp
      · intro _ hB2
        exact absurd rfl hB2
    | error eB =>
      constructor
      · rw [enforce_type, enforce_type_union_arms, hA, enforce_type_union_arms, hB,
          enforce_type_union_arms]
        simp [hA, hB]
      · intro _ _
        rw [enforce_type, enforce_type_union_arms, hA, enforce_type_union_arms, hB,
          enforce_type_union_arms]
        simp

/-- C1 witness: both arms fail for the value `()` (the empty Python tuple is
neither an int nor a str), so `enforce_type` on `int | str` raises the
combined union error. -/
theorem enforce_type_union_two_arms_witness :
    enforce_type (.tuple []) (.union [.cls .int, .cls .str]) ⟨[], true⟩ Option.none true =
      .error ⟨⟨[], true⟩, "must be one of types int | str not tuple", Option.none⟩ := by
  have h := (enforce_type_union_two_arms (.tuple []) (.cls .int) (.cls .str)
      ⟨[], true⟩ Option.none true).2
      (by simp [enforce_type, isInstance]) (by simp [enforce_type, isInstance])
  simpa [reprType, PyType.pyStr, pyStrList, reprClass, classOf, PyClass.pyModule,
    PyClass.pyName] using h

/-- C2: `enforce_type(L, list[T])` raises a `GU_TypeValidationError` at the
incoming path when `L` is not a list; when `L` is a list it returns normally
iff every element passes its check against `T` (performed at the path
extended by the element's index); and when a list fails, the raised error is
exactly the error of some failing element's check at its index-extended
path. -/
theorem enforce_type_list_characterization (L : PyVal) (T : PyType)
    (path : AbstractTreePath) (c : Option String) (ns : Bool) :
    ((∀ xs, L ≠ .list xs) →
      enforce_type L (.listT T) path c ns =
        .error ⟨path, "must be a list not " ++ reprClass (classOf L) ns, c⟩) ∧
    (∀ xs, L = .list xs →
      (enforce_type L (.listT T) path c ns = .ok () ↔
        ∀ pr ∈ List.enumFrom 0 xs,
          enforce_type pr.2 T (path.add_index_or_key (.int (Int.ofNat pr.1))) c ns = .ok ())) ∧
    (∀ xs e, L = .list xs → enforce_type L (.listT T) path c ns = .error e →
      ∃ pr ∈ List.enumFrom 0 xs,
        enforce_type pr.2 T (path.add_index_or_key (.int (Int.ofNat pr.1))) c ns = .error e) := by
  refine ⟨?_, ?_, ?_⟩
  · intro hL
    cases L
    case list xs => exact absurd rfl (hL xs)
    all_goals rw [enforce_type]
    all_goals simp
  · intro xs hxs
    subst hxs
    rw [enforce_type]
    exact enforce_type_elems_ok_iff T xs 0 path c ns
  · intro xs e hxs herr
    subst hxs
    rw [enforce_type] at herr
    exact enforce_type_elems_error T xs 0 path c ns e herr

/-- C2 witness: Scenario A of the spec. `[1, "2", 3]` against `list[int]`
fails, and the raised error sits at index 1 (the element check of `"2"`
against `int` at the path extended by index 1). -/
theorem enforce_type_list_characterization_witness :
    enforce_type (.int 7) (.listT (.cls .int)) ⟨[], true⟩ Option.none true =
        .error ⟨⟨[], true⟩, "must be a list not int", Option.none⟩ ∧
    (enforce_type (.list [.int 1, .int 2]) (.listT (.cls .int)) ⟨[], true⟩ Option.none true
        = .ok ()) := by
  constructor
  · have h := (enforce_type_list_characterization (.int 7) (.cls .int)
        ⟨[], true⟩ Option.none true).1 (by intro xs hxs; cases hxs)
    simpa [reprClass, classOf, PyClass.pyModule, PyClass.pyName] using h
  · have h := ((enforce_type_list_characterization (.list [.int 1, .int 2]) (.cls .int)
        ⟨[], true⟩ Option.none true).2.1 [.int 1, .int 2] rfl).2
    apply h
    intro pr hpr
    simp only [List.enumFrom, List.mem_cons, List.not_mem_nil, or_false] at hpr
    rcases hpr with rfl | rfl <;> simp [enforce_type, isInstance]

/-- C5: Scenario B.  `{"a": 1, "b": 2}` passes `dict[str, int]`; `{1: 1}`
fails with an error whose path is the incoming path extended by the
synthetic attribute `"keys()"` and index 0; and in general a dict passes
`dict[K, V]` iff every key passes `K` at the `"keys()"`-plus-index path and
every value passes `V` at the path extended by that key. -/
theorem enforce_type_dict_characterization (path : AbstractTreePath)
    (c : Option String) (ns : Bool) :
    enforce_type (.dict [(.str "a", .int 1), (.str "b", .int 2)])
        (.dictT (.cls .str) (.cls .int)) path c ns = .ok () ∧
    enforce_type (.dict [(.int 1, .int 1)])
        (.dictT (.cls .str) (.cls .int)) path c ns =
      .error ⟨(path.add_attribute "keys()").add_index_or_key (.int 0),
        "must be of type str not int", c⟩ ∧
    (∀ (K V : PyType) (es : List (PyVal × PyVal)),
      enforce_type (.dict es) (.dictT K V) path c ns = .ok () ↔
        ∀ pr ∈ List.enumFrom 0 es,
          enforce_type pr.2.1 K
            ((path.add_attribute "keys()").add_index_or_key (.int (Int.ofNat pr.1))) c ns
            = .ok () ∧
          enforce_type pr.2.2 V (path.add_index_or_key pr.2.1) c ns = .ok ()) := by
  refine ⟨?_, ?_, ?_⟩
  · simp [enforce_type, enforce_type_dict_items, isInstance]
  · simp [enforce_type, enforce_type_dict_items, isInstance, reprClass, classOf,
      PyClass.pyModule, PyClass.pyName]
  · intro K V es
    rw [enforce_type]
    exact enforce_type_dict_items_ok_iff K V es 0 path
      (path.add_attribute "keys()") c ns

/-- C6: a fixed-arity tuple annotation first compares lengths: any tuple
value whose length differs from the annotation's arity raises immediately at
the incoming path with the dedicated length-mismatch message, so no element
is ever checked; Scenario D instantiates this for `(1, "x")` against
`tuple[int, str, float]` (2 vs 3), and the length-mismatch message differs
from the element-type-mismatch message such a tuple could otherwise
produce. -/
theorem enforce_type_tuple_length_mismatch (path : AbstractTreePath)
    (c : Option String) (ns : Bool) :
    (∀ (xs : List PyVal) (ts : List PyType), ts ≠ [] → xs.length ≠ ts.length →
      enforce_type (.tuple xs) (.tupleFixed ts) path c ns =
        .error ⟨path,
          "must be a tuple of length " ++ toString ts.length
            ++ " not length " ++ toString xs.length, c⟩) ∧
    enforce_type (.tuple [.int 1, .str "x"])
        (.tupleFixed [.cls .int, .cls .str, .cls .float]) path c ns =
      .error ⟨path, "must be a tuple of length 3 not length 2", c⟩ ∧
    "must be a tuple of length 3 not length 2" ≠ "must be of type int not str" := by
  have hgen : ∀ (xs : List PyVal) (ts : List PyType), ts ≠ [] → xs.length ≠ ts.length →
      enforce_type (.tuple xs) (.tupleFixed ts) path c ns =
        .error ⟨path,
          "must be a tuple of length " ++ toString ts.length
            ++ " not length " ++ toString xs.length, c⟩ := by
    intro xs ts hne hlen
    rw [enforce_type]
    simp [List.isEmpty_iff, hne, hlen]
  refine ⟨hgen, ?_, by decide⟩
  have h := hgen [.int 1, .str "x"] [.cls .int, .cls .str, .cls .float]
    (by simp) (by simp)
  simpa using h

/-- C9: when the expected type is `Sequence[T]`, a string passes the
`isinstance(value, Sequence)` check and is then traversed character by
character (each one-character string checked against `T` at the path
extended by its index): `"ab"` passes `Sequence[str]` but fails
`Sequence[int]` with an error at index 0. -/
theorem enforce_type_sequence_str_traversed (s : String) (T : PyType)
    (path : AbstractTreePath) (c : Option String) (ns : Bool) :
    enforce_type (.str s) (.sequenceT T) path c ns =
        enforce_type_elems T (pyElems (.str s)) 0 path c ns ∧
    enforce_type (.str "ab") (.sequenceT (.cls .str)) path c ns = .ok () ∧
    enforce_type (.str "ab") (.sequenceT (.cls .int)) path c ns =
      .error ⟨path.add_index_or_key (.int 0),
        "must be of type int not str", c⟩ := by
  refine ⟨?_, ?_, ?_⟩
  · rw [enforce_type]
    simp [isSequenceInst]
  · rw [enforce_type]
    simp only [isSequenceInst, if_true]
    rw [show pyElems (.str "ab") = [.str "a", .str "b"] from rfl]
    simp [enforce_type_elems, enforce_type, isInstance]
  · rw [enforce_type]
    simp only [isSequenceInst, if_true]
    rw [show pyElems (.str "ab") = [.str "a", .str "b"] from rfl]
    simp [enforce_type_elems, enforce_type, isInstance, reprClass, classOf,
      PyClass.pyModule, PyClass.pyName]

/-- C6 witness: the general length-mismatch clause applied to the
one-element tuple `(1,)` against `tuple[str, str]`. -/
theorem enforce_type_tuple_length_mismatch_witness :
    enforce_type (.tuple [.int 1]) (.tupleFixed [.cls .str, .cls .str])
        ⟨[], true⟩ Option.none true =
      .error ⟨⟨[], true⟩, "must be a tuple of length 2 not length 1", Option.none⟩ := by
  have h := (enforce_type_tuple_length_mismatch ⟨[], true⟩ Option.none true).1
    [.int 1] [.cls .str, .cls .str] (by simp) (by simp)
  simpa using h

/-- Evaluating the Python slice `xs[:-n]` for `n ≥ 1`: it keeps the first
`length - n` elements. -/
theorem pySliceUpto_neg {α : Type} (xs : List α) (n : Nat) (hn : 1 ≤ n) :
    pySliceUpto xs (-(Int.ofNat n)) = xs.take (xs.length - n) := by
  simp only [pySliceUpto, Int.ofNat_eq_natCast]
  rw [if_pos (show -((n : Nat) : Int) < 0 by omega)]
  congr 1
  rcases le_total (((xs.length : Nat) : Int) + -((n : Nat) : Int)) 0 with h | h
  · rw [max_eq_right h]
    omega
  · rw [max_eq_left h]
    omega

/-- Evaluating the Python slice `xs[:0]` (which is what `xs[:-0]` means):
it is empty. -/
theorem pySliceUpto_zero {α : Type} (xs : List α) : pySliceUpto xs 0 = [] := by
  simp only [pySliceUpto, Int.ofNat_eq_natCast]
  rw [if_neg (by omega), min_eq_left (by exact_mod_cast Nat.zero_le xs.length)]
  simp

/-- C3 counterexample: `go_up(n)` is implemented as the slice `self[:-n]`,
and for `n = 0` the slice `self[:-0]` is `self[:0]`, the empty path — so
`go_up(0)` on the one-segment path `.a` does not return an equal path,
refuting the `goUp(0) = p` clause of the claim. -/
theorem go_up_zero_counterexample :
    AbstractTreePath.go_up ⟨[ATPathItem.attribute "a"], true⟩ 0 ≠
      ⟨[ATPathItem.attribute "a"], true⟩ := by
  intro h
  have h2 := congrArg AbstractTreePath.path h
  simp only [AbstractTreePath.go_up, neg_zero] at h2
  rw [pySliceUpto_zero] at h2
  exact List.noConfusion h2

/-- C3 (amended): for every path and every `n ≥ 1`, `go_up(n)` returns a new
path whose segments are the original segments with the last `min(n, length)`
segments removed (so an over-large `n` silently yields the empty path), and
the `start_with_dot` flag is preserved; but `go_up(0)` yields the empty
path — not a path equal to `p` — because the slice `self[:-0]` is
`self[:0]`. -/
theorem go_up_drops_last_segments (p : AbstractTreePath) (n : Nat) :
    (1 ≤ n → AbstractTreePath.go_up p (Int.ofNat n) =
      ⟨p.path.take (p.path.length - n), p.start_with_dot⟩) ∧
    AbstractTreePath.go_up p 0 = ⟨[], p.start_with_dot⟩ := by
  constructor
  · intro hn
    simp only [AbstractTreePath.go_up]
    rw [pySliceUpto_neg p.path n hn]
  · simp only [AbstractTreePath.go_up, neg_zero]
    rw [pySliceUpto_zero]

/-- C3 witness: dropping one segment from a two-segment path. -/
theorem go_up_drops_last_segments_witness :
    AbstractTreePath.go_up
        ⟨[ATPathItem.attribute "a", ATPathItem.attribute "b"], true⟩ (Int.ofNat 1) =
      ⟨[ATPathItem.attribute "a"], true⟩ := by
  have h := (go_up_drops_last_segments
    ⟨[ATPathItem.attribute "a", ATPathItem.attribute "b"], true⟩ 1).1 (by omega)
  simpa using h

/-- C4 counterexample: two paths with the same (empty) segment sequence but
different `startsWithDot` flags are not `__eq__`-equal: the
dataclass-generated equality compares the field tuple including the flag,
refuting the flag-is-excluded claim. -/
theorem path_flag_sensitive_counterexample :
    ¬ (AbstractTreePath.pyEq ⟨[], true⟩ ⟨[], false⟩ ∧
       AbstractTreePath.hashBasis ⟨[], true⟩ = AbstractTreePath.hashBasis ⟨[], false⟩) := by
  intro h
  have h2 := h.1.2
  simp at h2

/-- C4 (amended): `start_with_dot` is not render-only metadata for identity:
the dataclass-generated `__eq__` and `__hash__` of `AbstractTreePath`
include it, so two paths are `__eq__`-equal iff their segment sequences and
their flags both agree (i.e. iff the paths are identical), and the hash
input likewise determines and is determined by both fields. -/
theorem path_eq_and_hash_include_flag (p q : AbstractTreePath) :
    (AbstractTreePath.pyEq p q ↔ p = q) ∧
    (AbstractTreePath.hashBasis p = AbstractTreePath.hashBasis q ↔ p = q) := by
  cases p
  cases q
  simp [AbstractTreePath.pyEq, AbstractTreePath.hashBasis]

/-- The field loop short-circuits but is otherwise sequential: validating a
concatenation of field lists runs the first list, then the second unless an
error was raised. -/
theorem validate_fields_append (l1 l2 : List RecordFieldSpec) (path : AbstractTreePath) :
    validate_fields (l1 ++ l2) path =
      match validate_fields l1 path with
      | .error e => .error e
      | .ok _ => validate_fields l2 path := by
  induction l1 with
  | nil => simp [validate_fields]
  | cons f rest ih =>
    rw [List.cons_append, validate_fields]
    cases hf : validate_field_check f path with
    | error e => rw [validate_fields, hf]
    | ok u =>
      cases u
      rw [ih, validate_fields, hf]

/-- An absent field that is not required to exist contributes no check at
all. -/
theorem validate_field_check_skipped (f : RecordFieldSpec) (path : AbstractTreePath)
    (hv : f.value = Option.none) (hr : f.validate_require_exist = false) :
    validate_field_check f path = .ok () := by
  rw [validate_field_check]
  by_cases ht : f.validate_type = false
  · rw [if_pos ht]
  · rw [if_neg ht, hv, if_neg (by simp [hr])]

/-- The `NotSet` sentinel is an instance only of its own class. -/
theorem isInstance_notSet (c : PyClass) (hc : c ≠ PyClass.notSetType) :
    isInstance PyVal.notSet c = false := by
  cases c
  case notSetType => exact absurd rfl hc
  all_goals rfl

/-- C7 counterexample: a field annotated `Any` that is absent on the
instance and has `requiredToExist = true` does not raise during validation,
because the checker is invoked with the `NotSet` sentinel and
`enforce_type(NotSet, Any)` succeeds — refuting the claim's unconditional
"does raise" for required absent fields. -/
theorem validate_required_missing_any_counterexample :
    validate_fields [⟨"x", .any, Option.none, true, true⟩] ⟨[], true⟩ = .ok () := by
  rw [validate_fields, validate_field_check]
  simp [enforce_type, validate_fields]

/-- C7 (amended): for every record validated via the generated `validate`
method, an absent field with `requiredToExist = false` contributes nothing
(validation of the record equals validation of the record without that
field, so it never raises because of that field); an absent field with
`requiredToExist = true` makes the checker run on the `NotSet` sentinel at
the field's attribute path with `notset_as_special = true` — which raises
exactly when the declared type rejects the sentinel, in particular for every
plain-class annotation other than `NotSetType` itself (but not, e.g., for
`Any`). -/
theorem validate_missing_field_behaviour (flds1 flds2 : List RecordFieldSpec)
    (f : RecordFieldSpec) (path : AbstractTreePath) (hv : f.value = Option.none) :
    (f.validate_require_exist = false →
      validate_fields (flds1 ++ f :: flds2) path = validate_fields (flds1 ++ flds2) path) ∧
    (f.validate_require_exist = true → f.validate_type = true →
      validate_fields (f :: flds2) path =
        match enforce_type PyVal.notSet f.ftype (path.add_attribute f.name) Option.none true with
        | .error e => .error e
        | .ok _ => validate_fields flds2 path) ∧
    (∀ c : PyClass, f.validate_require_exist = true → f.validate_type = true →
      f.ftype = .cls c → c ≠ PyClass.notSetType →
      validate_fields [f] path =
        .error ⟨path.add_attribute f.name,
          "must be of type " ++ reprClass c true ++ " not " ++ "<not set>",
          Option.none⟩) := by
  have hcheck : f.validate_require_exist = true → f.validate_type = true →
      validate_field_check f path =
        enforce_type PyVal.notSet f.ftype (path.add_attribute f.name) Option.none true := by
    intro hr ht
    rw [validate_field_check, if_neg (by simp [ht]), hv, if_pos hr]
  refine ⟨?_, ?_, ?_⟩
  · intro hr
    rw [validate_fields_append, validate_fields_append,
      show validate_fields (f :: flds2) path = validate_fields flds2 path by
        rw [validate_fields, validate_field_check_skipped f path hv hr]]
  · intro hr ht
    rw [validate_fields, hcheck hr ht]
  · intro c hr ht hty hc
    rw [validate_fields, hcheck hr ht, hty]
    rw [show enforce_type PyVal.notSet (.cls c) (path.add_attribute f.name) Option.none true =
        .error ⟨path.add_attribute f.name,
          "must be of type " ++ reprClass c true ++ " not " ++ "<not set>",
          Option.none⟩ by
      rw [enforce_type, if_neg (by simp [isInstance_notSet c hc])]
      simp [classOf, reprClass]]

/-- C7 witness: a required absent field of declared type `int` raises at the
field's attribute path with the `<not set>` rendering of the sentinel. -/
theorem validate_missing_field_behaviour_witness :
    validate_fields [⟨"x", .cls .int, Option.none, true, true⟩] ⟨[], true⟩ =
      .error ⟨AbstractTreePath.add_attribute ⟨[], true⟩ "x",
        "must be of type " ++ reprClass .int true ++ " not " ++ "<not set>",
        Option.none⟩ := by
  exact (validate_missing_field_behaviour [] []
    ⟨"x", .cls .int, Option.none, true, true⟩ ⟨[], true⟩ rfl).2.2 .int rfl rfl rfl (by simp)

/-- C8: when the expected type is `Iterable[T]`, string and bytes values
pass the `isinstance(value, Iterable)` check and are then returned without
any element being checked, for every element type `T`. -/
theorem enforce_type_iterable_str_bytes_opaque (s : String) (bs : List Nat) (T : PyType)
    (path : AbstractTreePath) (c : Option String) (ns : Bool) :
    isIterableInst (.str s) = true ∧
    isIterableInst (.bytes bs) = true ∧
    enforce_type (.str s) (.iterableT T) path c ns = .ok () ∧
    enforce_type (.bytes bs) (.iterableT T) path c ns = .ok () := by
  refine ⟨rfl, rfl, ?_, ?_⟩ <;> rw [enforce_type] <;> simp [isIterableInst]

mutual

/-- The value tree contains no object delegating to a custom
`_visit_node_unfiltered_` hook at any position the default traversal
reaches (the node itself, collection elements, dict values, dataclass field
values). -/
def hookFree : PyVal → Bool
  | .list xs => hookFreeItems xs
  | .tuple xs => hookFreeItems xs
  | .set xs => hookFreeItems xs
  | .frozenset xs => hookFreeItems xs
  | .dict es => hookFreeEntries es
  | .record _ _ flds => hookFreeFields flds
  | .hooked _ _ _ => false
  | _ => true

/-- `hookFree` for every element of a collection. -/
def hookFreeItems : List PyVal → Bool
  | [] => true
  | x :: rest => hookFree x && hookFreeItems rest

/-- `hookFree` for every value of a dict. -/
def hookFreeEntries : List (PyVal × PyVal) → Bool
  | [] => true
  | (_, v) :: rest => hookFree v && hookFreeEntries rest

/-- `hookFree` for every field value of a dataclass. -/
def hookFreeFields : List (String × PyVal) → Bool
  | [] => true
  | (_, v) :: rest => hookFree v && hookFreeFields rest

end

/-! Helper lemmas for the tree visitor: away from custom hooks, every pair
produced by `_visit_node_unfiltered` sits at a strict extension of the
incoming path. -/

theorem hookFreeItems_mem (xs : List PyVal) (h : hookFreeItems xs = true) :
    ∀ x ∈ xs, hookFree x = true := by
  induction xs with
  | nil => intro x hx; cases hx
  | cons y rest ih =>
    rw [hookFreeItems, Bool.and_eq_true] at h
    intro x hx
    rcases List.mem_cons.mp hx with rfl | hx
    · exact h.1
    · exact ih h.2 x hx

theorem hookFreeEntries_mem (es : List (PyVal × PyVal)) (h : hookFreeEntries es = true) :
    ∀ kv ∈ es, hookFree kv.2 = true := by
  induction es with
  | nil => intro kv hkv; cases hkv
  | cons y rest ih =>
    obtain ⟨k, v⟩ := y
    rw [hookFreeEntries, Bool.and_eq_true] at h
    intro kv hkv
    rcases List.mem_cons.mp hkv with rfl | hkv
    · exact h.1
    · exact ih h.2 kv hkv

theorem hookFreeFields_mem (flds : List (String × PyVal)) (h : hookFreeFields flds = true) :
    ∀ nv ∈ flds, hookFree nv.2 = true := by
  induction flds with
  | nil => intro nv hnv; cases hnv
  | cons y rest ih =>
    obtain ⟨nm, v⟩ := y
    rw [hookFreeFields, Bool.and_eq_true] at h
    intro nv hnv
    rcases List.mem_cons.mp hnv with rfl | hnv
    · exact h.1
    · exact ih h.2 nv hnv

theorem visit_items_extends (xs : List PyVal) (i : Nat) (path : AbstractTreePath)
    (IH : ∀ x ∈ xs, ∀ (p2 : AbstractTreePath) (pr : AbstractTreePath × PyVal),
      pr ∈ visit_node_unfiltered x p2 → p2.path.length < pr.1.path.length) :
    ∀ pr ∈ visit_items xs i path, path.path.length < pr.1.path.length := by
  induction xs generalizing i with
  | nil =>
    intro pr hpr
    rw [visit_items] at hpr
    cases hpr
  | cons x rest ih =>
    intro pr hpr
    rw [visit_items] at hpr
    rcases List.mem_append.mp hpr with hpr | hpr
    · rcases List.mem_cons.mp hpr with rfl | hpr
      · simp only [AbstractTreePath.add_index_or_key, List.length_append, List.length_cons,
          List.length_nil]
        omega
      · have h2 := IH x (List.mem_cons_self x rest) _ pr hpr
        simp only [AbstractTreePath.add_index_or_key, List.length_append, List.length_cons,
          List.length_nil] at h2
        omega
    · exact ih (i + 1) (fun y hy => IH y (List.mem_cons_of_mem x hy)) pr hpr

theorem visit_entries_extends (es : List (PyVal × PyVal)) (path : AbstractTreePath)
    (IH : ∀ kv ∈ es, ∀ (p2 : AbstractTreePath) (pr : AbstractTreePath × PyVal),
      pr ∈ visit_node_unfiltered kv.2 p2 → p2.path.length < pr.1.path.length) :
    ∀ pr ∈ visit_entries es path, path.path.length < pr.1.path.length := by
  induction es with
  | nil =>
    intro pr hpr
    rw [visit_entries] at hpr
    cases hpr
  | cons kv rest ih =>
    obtain ⟨k, v⟩ := kv
    intro pr hpr
    rw [visit_entries] at hpr
    rcases List.mem_append.mp hpr with hpr | hpr
    · rcases List.mem_cons.mp hpr with rfl | hpr
      · simp only [AbstractTreePath.add_index_or_key, List.length_append, List.length_cons,
          List.length_nil]
        omega
      · have h2 := IH (k, v) (List.mem_cons_self (k, v) rest) _ pr hpr
        simp only [AbstractTreePath.add_index_or_key, List.length_append, List.length_cons,
          List.length_nil] at h2
        omega
    · exact ih (fun y hy => IH y (List.mem_cons_of_mem (k, v) hy)) pr hpr

theorem visit_fields_extends (flds : List (String × PyVal)) (path : AbstractTreePath)
    (IH : ∀ nv ∈ flds, ∀ (p2 : AbstractTreePath) (pr : AbstractTreePath × PyVal),
      pr ∈ visit_node_unfiltered nv.2 p2 → p2.path.length < pr.1.path.length) :
    ∀ pr ∈ visit_fields flds path, path.path.length < pr.1.path.length := by
  induction flds with
  | nil =>
    intro pr hpr
    rw [visit_fields] at hpr
    cases hpr
  | cons nv rest ih =>
    obtain ⟨nm, v⟩ := nv
    intro pr hpr
    rw [visit_fields] at hpr
    by_cases hn : v.isNone = true
    · rw [if_pos hn] at hpr
      exact ih (fun y hy => IH y (List.mem_cons_of_mem (nm, v) hy)) pr hpr
    · rw [if_neg hn] at hpr
      rcases List.mem_append.mp hpr with hpr | hpr
      · rcases List.mem_cons.mp hpr with rfl | hpr
        · simp only [AbstractTreePath.add_attribute, List.length_append, List.length_cons,
            List.length_nil]
          omega
        · have h2 := IH (nm, v) (List.mem_cons_self (nm, v) rest) _ pr hpr
          simp only [AbstractTreePath.add_attribute, List.length_append, List.length_cons,
            List.length_nil] at h2
          omega
      · exact ih (fun y hy => IH y (List.mem_cons_of_mem (nm, v) hy)) pr hpr

theorem visit_node_unfiltered_extends (obj : PyVal) (p2 : AbstractTreePath) :
    hookFree obj = true →
    ∀ pr ∈ visit_node_unfiltered obj p2, p2.path.length < pr.1.path.length := by
  cases obj with
  | list xs =>
    intro hfree
    rw [visit_node_unfiltered]
    rw [hookFree] at hfree
    exact visit_items_extends xs 0 p2
      (fun x hx p3 pr hpr =>
        visit_node_unfiltered_extends x p3 (hookFreeItems_mem xs hfree x hx) pr hpr)
  | tuple xs =>
    intro hfree
    rw [visit_node_unfiltered]
    rw [hookFree] at hfree
    exact visit_items_extends xs 0 p2
      (fun x hx p3 pr hpr =>
        visit_node_unfiltered_extends x p3 (hookFreeItems_mem xs hfree x hx) pr hpr)
  | set xs =>
    intro hfree
    rw [visit_node_unfiltered]
    rw [hookFree] at hfree
    exact visit_items_extends xs 0 p2
      (fun x hx p3 pr hpr =>
        visit_node_unfiltered_extends x p3 (hookFreeItems_mem xs hfree x hx) pr hpr)
  | frozenset xs =>
    intro hfree
    rw [visit_node_unfiltered]
    rw [hookFree] at hfree
    exact visit_items_extends xs 0 p2
      (fun x hx p3 pr hpr =>
        visit_node_unfiltered_extends x p3 (hookFreeItems_mem xs hfree x hx) pr hpr)
  | dict es =>
    intro hfree
    rw [visit_node_unfiltered]
    rw [hookFree] at hfree
    exact visit_entries_extends es p2
      (fun kv hkv p3 pr hpr =>
        visit_node_unfiltered_extends kv.2 p3 (hookFreeEntries_mem es hfree kv hkv) pr hpr)
  | record m n flds =>
    intro hfree
    rw [visit_node_unfiltered]
    rw [hookFree] at hfree
    exact visit_fields_extends flds p2
      (fun nv hnv p3 pr hpr =>
        visit_node_unfiltered_extends nv.2 p3 (hookFreeFields_mem flds hfree nv hnv) pr hpr)
  | hooked m n emit =>
    intro hfree
    rw [hookFree] at hfree
    exact Bool.noConfusion hfree
  | _ =>
    intro hfree pr hpr
    simp [visit_node_unfiltered] at hpr
termination_by sizeOf obj
decreasing_by
  all_goals simp_wf
  · have h1 := List.sizeOf_lt_of_mem hx
    omega
  · have h1 := List.sizeOf_lt_of_mem hx
    omega
  · have h1 := List.sizeOf_lt_of_mem hx
    omega
  · have h1 := List.sizeOf_lt_of_mem hx
    omega
  · have h1 := List.sizeOf_lt_of_mem hkv
    obtain ⟨k, v⟩ := kv
    simp at h1 ⊢
    omega
  · have h1 := List.sizeOf_lt_of_mem hnv
    obtain ⟨nm, v⟩ := nv
    simp at h1 ⊢
    omega

/-- C10 counterexample: the `_visit_node_unfiltered_` delegation branch of
`TreeVisitor._visit_node_unfiltered` runs a custom hook on the incoming
path, which at the root call is the empty path, and the hook may emit a pair
right there: for a root object whose hook returns `[(path, 5)]` and
`included_types = (int,)`, the mapping returned by `visit_tree` does contain
the empty path as a key — refuting the claim's quantification over every
root object. -/
theorem visit_tree_hooked_root_counterexample :
    ((⟨[], true⟩ : AbstractTreePath), PyVal.int 5) ∈
      visit_tree [PyClass.int] (.hooked "m" "WithHook" [([], .int 5)]) ∧
    (⟨[], true⟩ : AbstractTreePath).path = [] := by
  constructor
  · simp [visit_tree, visit_node_unfiltered, included_matches, isInstance]
  · rfl

/-- C10 (amended): the `_visit_node_unfiltered_` delegation branch hands a
custom hook the incoming — at the root call, empty — path, and a hook may
emit an entry at that unextended path; for trees free of such hooks the
claimed property holds: `visit_tree` never produces an entry keyed by the
empty (root) path, because the default traversal always extends the path by
at least one index, key or attribute segment before yielding a pair — so the
root object is never an entry at the root position, whatever
`included_types` is, even if the root's runtime type is included.  Since the
Python result dict is keyed by exactly these paths, it never contains the
empty path as a key. -/
theorem visit_tree_no_root_entry_hook_free (included_types : List PyClass) (r : PyVal)
    (hfree : hookFree r = true) :
    ∀ pr ∈ visit_tree included_types r, pr.1.path ≠ [] := by
  intro pr hpr
  have hmem : pr ∈ visit_node_unfiltered r ⟨[], true⟩ := (List.mem_filter.mp hpr).1
  have hlt := visit_node_unfiltered_extends r ⟨[], true⟩ hfree pr hmem
  intro h0
  rw [h0] at hlt
  simp at hlt

/-- C10 witness: the hook-free tree `[5]` with `included_types = (int,)`
produces its single entry at the nonempty path `[0]`. -/
theorem visit_tree_no_root_entry_hook_free_witness :
    ((⟨[ATPathItem.indexOrKey (.int 0)], true⟩, PyVal.int 5) :
        AbstractTreePath × PyVal).1.path ≠ [] := by
  refine visit_tree_no_root_entry_hook_free [PyClass.int] (.list [.int 5]) ?_ _ ?_
  · simp [hookFree, hookFreeItems]
  · simp [visit_tree, visit_node_unfiltered, visit_items, included_matches, isInstance,
      AbstractTreePath.add_index_or_key]

end Gceutils
